import Mathlib

/-!
# A shallow embedding of `drymail` (src/drymail.py) in Lean 4

This file models the two components of the drymail library — the `Message`
composition state machine together with the address-stringification helpers,
and the `SMTPMailer` connection lifecycle — and proves the behavioural claims
about them.

Modelling conventions:
* Python strings are `String`; Python bytes are `List Nat` (one `Nat < 256`
  per byte, although no claim depends on the bound).
* Python truthiness of the optional fields is made explicit (`none` and the
  empty string / empty list / empty bytes are falsy).
* The external libraries the source calls are treated as parameters where
  their behaviour is unconstrained by the repository
  (`BeautifulSoup(...).get_text(strip=True)`, `mistune.markdown`,
  `email.message_from_bytes`, `Message.as_string`) and modelled concretely
  where the source's observable behaviour fixes them
  (`email.utils.formataddr`, `email.header.Header.__str__`,
  `mimetypes.guess_type`, base64 payload encoding).
* A MIME document (`email.message.Message` / `MIMEMultipart` / `MIMEText` /
  `MIMEBase`) is the inductive `MimePart`; the `Content-Type` produced by the
  various constructors is represented structurally by the constructor and its
  type arguments, and the explicit header assignments (`msg['X'] = v`, which
  *appends* in the stdlib) are an association list kept in insertion order.
* Exceptions are `Except String`; a function that raises before mutating
  returns `.error` leaving the caller's state untouched, mirroring the order
  of statements in the source.
-/

namespace Drymail

/-- Python `a or b` for strings: the left operand unless it is empty/falsy. -/
def pyOrStr (a b : String) : String := if a = "" then b else a

/-- Python `a or b` where `a` is an optional integer (used for `port or 465`):
`None` and `0` are falsy. -/
def pyOrNat (a : Option Nat) (b : Nat) : Nat :=
  match a with
  | none => b
  | some n => if n = 0 then b else n

/-- An address: either a bare email string or a `(display-name, email)` pair,
as accepted throughout `drymail.py`. -/
inductive Address where
  | bare (email : String)
  | named (name : String) (email : String)
deriving DecidableEq

/-- A parameter that may be a single address or a list of addresses
(`stringify_addresses` dispatches on `isinstance(addresses, list)`). -/
inductive AddressList where
  | single (a : Address)
  | list (l : List Address)
deriving DecidableEq

/-- Python truthiness of an address (a nonempty string or any 2-tuple). -/
def Address.truthy : Address → Bool
  | .bare e => e ≠ ""
  | .named _ _ => true

/-- Python truthiness of a single-or-list address value. -/
def AddressList.truthy : AddressList → Bool
  | .single a => a.truthy
  | .list l => !l.isEmpty

/-- Python truthiness of an optional single-or-list address value
(`if self.cc:` and friends). -/
def optTruthy : Option AddressList → Bool
  | none => false
  | some al => al.truthy

/-- Python truthiness of an optional bytes value (`if self.prepared_message:`;
note that empty bytes are falsy). -/
def bytesTruthy : Option (List Nat) → Bool
  | none => false
  | some bs => !bs.isEmpty

/-- Python truthiness of an optional headers dict (`if self.headers:`). -/
def headersTruthy : Option (List (String × String)) → Bool
  | none => false
  | some hs => !hs.isEmpty

/-- Python truthiness of an optional string (`if self.user and self.password:`). -/
def strOptTruthy : Option String → Bool
  | none => false
  | some s => s ≠ ""

/-! ## Address stringification (`stringify_address`, `stringify_addresses`)

`stringify_address` calls `formataddr((str(Header(address[0], 'utf-8')),
address[1]))`.  `email.header.Header.__str__` returns the (unicode) value of
the header unchanged for single-line values — RFC 2047 encoding only happens
in `Header.encode`, which is never called here — so the display name reaches
`formataddr` as-is, and it is `formataddr` that quotes, escapes, or
RFC-2047-encodes it. -/

/-- The characters of `email.utils.specialsre`, the class `[][\()<>@,:;".]`:
a display name containing one of these is put in double quotes. -/
def isSpecialChar (c : Char) : Bool :=
  c = ']' || c = '[' || c = '\\' || c = '(' || c = ')' || c = '<' || c = '>' ||
  c = '@' || c = ',' || c = ':' || c = ';' || c = '"' || c = '.'

/-- The characters of `email.utils.escapesre`, the class `[\"]`: these are
backslash-escaped inside the display name. -/
def isEscapeChar (c : Char) : Bool := c = '\\' || c = '"'

/-- Python's `escapesre.sub(r'\\\g<0>', name)`: prefix every backslash and double
quote with a backslash. -/
def escapeName (s : String) : String :=
  String.mk (s.toList.flatMap fun c => if isEscapeChar c then ['\\', c] else [c])

/-- Whether every character of the string is ASCII
(`name.encode('ascii')` succeeding). -/
def isAsciiStr (s : String) : Bool := s.toList.all fun c => c.toNat ≤ 127

/-- UTF-8 encoding of one code point, as byte values. -/
def charUtf8 (c : Char) : List Nat :=
  let n := c.toNat
  if n < 128 then [n]
  else if n < 2048 then [192 + n / 64, 128 + n % 64]
  else if n < 65536 then [224 + n / 4096, 128 + (n / 64) % 64, 128 + n % 64]
  else [240 + n / 262144, 128 + (n / 4096) % 64, 128 + (n / 64) % 64, 128 + n % 64]

/-- UTF-8 encoding of a string, as byte values. -/
def strUtf8 (s : String) : List Nat := s.toList.flatMap charUtf8

/-- The base64 alphabet. -/
def b64Char (n : Nat) : Char :=
  "ABCDEFGHIJKLMNOPQRSTUVWXYZabcdefghijklmnopqrstuvwxyz0123456789+/".toList.getD n 'A'

/-- Standard base64 of a byte sequence (the payload produced by
`email.encoders.encode_base64`, modulo the 76-column line wrapping of the
stdlib, which no claim concerns). -/
def base64Encode : List Nat → String
  | [] => ""
  | [a] => String.mk [b64Char (a / 4), b64Char (a % 4 * 16), '=', '=']
  | [a, b] => String.mk [b64Char (a / 4), b64Char (a % 4 * 16 + b / 16),
      b64Char (b % 16 * 4), '=']
  | a :: b :: c :: rest =>
      String.mk [b64Char (a / 4), b64Char (a % 4 * 16 + b / 16),
        b64Char (b % 16 * 4 + c / 64), b64Char (c % 64)] ++ base64Encode rest

/-- The RFC 2047 encoded word `Charset('utf-8').header_encode(name)` produces
for a non-ASCII display name. -/
def headerEncodeUtf8 (s : String) : String :=
  "=?utf-8?b?" ++ base64Encode (strUtf8 s) ++ "?="

/-- Python's `email.utils.formataddr((name, email))` with the default `utf-8` charset:
empty name returns the email unchanged; an ASCII name is backslash-escaped
and double-quoted exactly when it contains a special character; a non-ASCII
name is RFC-2047 encoded and never quoted. -/
def formataddr (name email : String) : String :=
  if name ≠ "" then
    if isAsciiStr name then
      let quotes := if name.toList.any isSpecialChar then "\"" else ""
      quotes ++ escapeName name ++ quotes ++ " <" ++ email ++ ">"
    else
      headerEncodeUtf8 name ++ " <" ++ email ++ ">"
  else email

/-- The value of `str(Header(s, 'utf-8'))` for the single-line display names at hand:
the stdlib returns the chunk values joined unchanged (no RFC 2047 encoding
happens in `__str__`). -/
def headerStr (s : String) : String := s

/-- Embeds `drymail.stringify_address`: normalize a bare string to an empty display
name, wrap the name through `Header`, and hand the pair to `formataddr`. -/
def stringify_address (address : Address) : String :=
  match address with
  | .bare email => formataddr (headerStr "") email
  | .named name email => formataddr (headerStr name) email

/-- Embeds `drymail.stringify_addresses`: a list is mapped through
`stringify_address` and joined with `", "`; anything else is a single
address. -/
def stringify_addresses : AddressList → String
  | .list l => String.intercalate ", " (l.map stringify_address)
  | .single a => stringify_address a

/-! ## MIME documents

`email.message.Message.__setitem__` *appends* a header (it never replaces),
and `Message.attach` appends to the payload list of a multipart.  The
`Content-Type` implied by each constructor (`MIMEMultipart(subtype)`,
`MIMEText(body, subtype)`, `MIMEBase(maintype, subtype)`) is represented
structurally. -/

/-- A MIME document part. -/
inductive MimePart where
  /-- A `MIMEMultipart(subtype)` (or a parsed non-leaf message). -/
  | multipart (subtype : String) (headers : List (String × String))
      (parts : List MimePart)
  /-- A `MIMEText(content, subtype)`. -/
  | text (subtype : String) (headers : List (String × String)) (content : String)
  /-- A `MIMEBase(maintype, subtype)` with a string payload. -/
  | base (maintype subtype : String) (headers : List (String × String))
      (payload : String)

/-- The explicitly-set headers of a part. -/
def MimePart.headersOf : MimePart → List (String × String)
  | .multipart _ hs _ => hs
  | .text _ hs _ => hs
  | .base _ _ hs _ => hs

/-- The child parts of a part (empty for leaves). -/
def MimePart.parts : MimePart → List MimePart
  | .multipart _ _ ps => ps
  | _ => []

/-- Python's `msg[key] = value`: append one header (stdlib `__setitem__` appends). -/
def MimePart.addHeader : MimePart → String → String → MimePart
  | .multipart st hs ps, k, v => .multipart st (hs ++ [(k, v)]) ps
  | .text st hs c, k, v => .text st (hs ++ [(k, v)]) c
  | .base mt st hs p, k, v => .base mt st (hs ++ [(k, v)]) p

/-- Python's `msg.attach(part)`: append one child to a multipart's payload list (the
source only ever calls it on multiparts; on a leaf it is the identity). -/
def MimePart.attachPart : MimePart → MimePart → MimePart
  | .multipart st hs ps, p => .multipart st hs (ps ++ [p])
  | leaf, _ => leaf

/-- How many times a header name has been set on a part. -/
def MimePart.countHeader (p : MimePart) (name : String) : Nat :=
  p.headersOf.countP fun kv => kv.1 = name

/-! ## `mimetypes.guess_type`, modelled

The stdlib resolves the (lowercased) final extension of the filename through
a type table, after first stripping one encoding suffix (case-sensitively)
through an encodings table; it returns `(type?, encoding?)` and raises
nothing.  The tables below are the relevant rows of the stdlib tables. -/

/-- Representative rows of `mimetypes.types_map`
(note `'.bin': 'application/octet-stream'` is a genuine stdlib row). -/
def typesMap : List (String × String) :=
  [(".pdf", "application/pdf"), (".bin", "application/octet-stream"),
   (".txt", "text/plain"), (".html", "text/html"), (".csv", "text/csv"),
   (".png", "image/png"), (".tar", "application/x-tar"),
   (".jpg", "image/jpeg"), (".zip", "application/zip")]

/-- The rows of `mimetypes.encodings_map` (compression suffixes that make
`guess_type` report an encoding instead of a type for that suffix). -/
def encodingsMap : List (String × String) :=
  [(".gz", "gzip"), (".Z", "compress"), (".bz2", "bzip2"),
   (".xz", "xz"), (".br", "br")]

/-- Python's `ext.lower()` (character-wise ASCII lowering, as a list traversal). -/
def strToLower (s : String) : String := String.mk (s.toList.map Char.toLower)

/-- Index of the last occurrence of a character in a list, if any. -/
def lastIdxOf (c : Char) (cs : List Char) : Option Nat :=
  match cs.reverse.findIdx? (· = c) with
  | some r => some (cs.length - 1 - r)
  | none => none

/-- Python's `posixpath.splitext`: split off the extension at the last dot of the
final path component; leading dots of the component never start an
extension. -/
def splitext (s : String) : String × String :=
  let cs := s.toList
  let start := match lastIdxOf '/' cs with
    | some i => i + 1
    | none => 0
  let stem := cs.drop start
  match lastIdxOf '.' stem with
  | some d =>
    if (stem.take d).any (· ≠ '.') then
      (String.mk (cs.take (start + d)), String.mk (stem.drop d))
    else (s, "")
  | none => (s, "")

/-- Python's `mimetypes.guess_type(filename)`: strip one encoding suffix
(case-sensitive), then look the lowercased extension up in the type table;
returns `(type?, encoding?)`. -/
def guess_type (filename : String) : Option String × Option String :=
  let (base, ext) := splitext filename
  let (ext, encoding) :=
    match encodingsMap.lookup ext with
    | some enc => ((splitext base).2, some enc)
    | none => (ext, none)
  (typesMap.lookup (strToLower ext), encoding)

/-! ## The `Message` class -/

/-- The state of a `drymail.Message`. -/
structure Message where
  subject : String
  sender : Address
  receivers : AddressList
  authors : Option AddressList
  cc : Option AddressList
  bcc : Option AddressList
  reply_to : Option AddressList
  headers : Option (List (String × String))
  text : String
  html : String
  /-- The private `__attachments` list of filenames. -/
  attachments : List String
  prepared_message : Option (List Nat)
  prepared : Bool
  message : MimePart

/-- Embeds `Message.__init__`: store the fields (`subject`, `text`, `html` default to
`''` via `x or ''`), start with no attachments, `prepared = False`, and a
fresh `MIMEMultipart('mixed')`. -/
def Message.make (sender : Address) (receivers : AddressList)
    (subject : Option String) (authors cc bcc reply_to : Option AddressList)
    (headers : Option (List (String × String)))
    (text html : Option String) (prepared_message : Option (List Nat)) :
    Message where
  subject := subject.getD ""
  sender := sender
  receivers := receivers
  authors := authors
  cc := cc
  bcc := bcc
  reply_to := reply_to
  headers := headers
  text := text.getD ""
  html := html.getD ""
  attachments := []
  prepared_message := prepared_message
  prepared := false
  message := .multipart "mixed" [] []

/-- Split a list at the first occurrence of a separator (`s.split(sep, 1)`
when the separator occurs; `none` when it does not, in which case the
two-variable unpacking in the source raises `ValueError`). -/
def splitOnFirst (sep : Char) : List Char → Option (List Char × List Char)
  | [] => none
  | c :: cs =>
    if c = sep then some ([], cs)
    else (splitOnFirst sep cs).map fun p => (c :: p.1, p.2)

/-- The split `maintype, subtype = mimetype.split('/', 1)`. -/
def splitSlash (s : String) : Option (String × String) :=
  (splitOnFirst '/' s.toList).map fun p => (String.mk p.1, String.mk p.2)

/-- The mimetype `attach` resolves: the supplied one if truthy, else the
guessed type, with `application/octet-stream` when guessing fails or reports
an encoding. -/
def resolveMimetype (filename : String) (mimetype : Option String) : String :=
  let inferred :=
    match guess_type filename with
    | (some t, none) => t
    | (_, _) => "application/octet-stream"
  match mimetype with
  | some s => if s = "" then inferred else s
  | none => inferred

/-- The header `add_header('Content-Disposition', 'attachment',
filename=filename)` produces. -/
def contentDisposition (filename : String) : String × String :=
  ("Content-Disposition", "attachment; filename=\"" ++ filename ++ "\"")

/-- The attachment part `attach` builds: `MIMEBase(maintype, subtype)` with
base64 payload and a `Content-Disposition` header; `none` when the
`mimetype.split('/', 1)` unpacking raises. -/
def attachmentPart (data : List Nat) (filename : String)
    (mimetype : Option String) : Option MimePart :=
  (splitSlash (resolveMimetype filename mimetype)).map fun p =>
    .base p.1 p.2 [contentDisposition filename] (base64Encode data)

/-- Embeds `Message.attach`: return unchanged when `prepared_message` is truthy;
otherwise resolve the mimetype, raise `ValueError` when it has no `/` (at
which point nothing has been mutated yet), else append the built part to the
document and the filename to the attachment list. -/
def Message.attach (m : Message) (data : List Nat) (filename : String)
    (mimetype : Option String) : Except String Message :=
  if bytesTruthy m.prepared_message then .ok m
  else
    match attachmentPart data filename mimetype with
    | none => .error "ValueError: not enough values to unpack (expected 2, got 1)"
    | some part =>
      .ok { m with message := m.message.attachPart part,
                   attachments := m.attachments ++ [filename] }

/-- Embeds `Message.prepare`, parameterized by the external
`BeautifulSoup(html, 'html.parser').get_text(strip=True)` (`stripHtml`),
`mistune.markdown` (`markdown`) and `email.message_from_bytes`
(`parseBytes`): the override path replaces the document with the parsed
bytes; the normal path derives the missing body, appends the standard and
custom headers, and appends the two-part alternative body. -/
def Message.prepare (stripHtml markdown : String → String)
    (parseBytes : List Nat → MimePart) (m : Message) : Message :=
  if bytesTruthy m.prepared_message then
    { m with message := parseBytes (m.prepared_message.getD []),
             prepared := true }
  else
    let text := pyOrStr m.text (stripHtml m.html)
    let html := pyOrStr m.html (markdown text)
    let msg := m.message
    let msg := msg.addHeader "Sender" (stringify_address m.sender)
    let msg := msg.addHeader "From"
      (if optTruthy m.authors then stringify_addresses (m.authors.getD (.list []))
       else stringify_address m.sender)
    let msg := msg.addHeader "To" (stringify_addresses m.receivers)
    let msg := msg.addHeader "Subject" m.subject
    let msg := if optTruthy m.cc then
        msg.addHeader "CC" (stringify_addresses (m.cc.getD (.list []))) else msg
    let msg := if optTruthy m.bcc then
        msg.addHeader "BCC" (stringify_addresses (m.bcc.getD (.list []))) else msg
    let msg := if optTruthy m.reply_to then
        msg.addHeader "Reply-To" (stringify_addresses (m.reply_to.getD (.list [])))
      else msg
    let msg := if headersTruthy m.headers then
        (m.headers.getD []).foldl (fun acc kv => acc.addHeader kv.1 kv.2) msg
      else msg
    let body := MimePart.multipart "alternative" []
      [.text "plain" [] text, .text "html" [] html]
    { m with text := text, html := html,
             message := msg.attachPart body, prepared := true }

/-- Embeds `Message.__str__`, parameterized additionally by `as_string`
(`asString`): prepare first when not yet prepared, then serialize; returns
the (possibly updated) state together with the string. -/
def Message.strOf (stripHtml markdown : String → String)
    (parseBytes : List Nat → MimePart) (asString : MimePart → String)
    (m : Message) : Message × String :=
  if !m.prepared then
    let m' := m.prepare stripHtml markdown parseBytes
    (m', asString m'.message)
  else (m, asString m.message)

/-! ## The `SMTPMailer` class

The network side of `smtplib` is abstracted: `connect` records the protocol
actions it performs as events, and what `self.client.quit()` does on the wire
during `close` is a parameter (`QuitBehavior`), since it depends on the
server.  An exception that the source does not catch is returned as a
`some`-valued second component, and — exactly as in the source, where the
statements after the raise never run — the state component then reflects only
the mutations made before the raise. -/

/-- A protocol action performed by the mailer. -/
inductive SMTPEvent where
  | ehlo
  | starttls
  | login (user password : String)
  | transmit (sender : Option String) (receivers : Option (List String))
deriving DecidableEq

/-- What `self.client.quit()` does: succeed, raise
`SMTPServerDisconnected`, or raise some other exception. -/
inductive QuitBehavior where
  | ok
  | serverDisconnected
  | raises
deriving DecidableEq

/-- The state of a `drymail.SMTPMailer`. -/
structure SMTPMailer where
  host : String
  port : Nat
  user : Option String
  password : Option String
  ssl : Bool
  tls : Bool
  connected : Bool
  /-- Whether `self.client` holds a client object (`None` until `connect`). -/
  clientActive : Bool

/-- Embeds `SMTPMailer.__init__`: the port defaults (via `port or d`, so `None` and
`0` both take the default) to 465 under `ssl`, else 587 under `tls`, else 25;
starts unconnected with no client. -/
def SMTPMailer.make (host : String) (port : Option Nat)
    (user password : Option String) (ssl tls : Bool) : SMTPMailer where
  host := host
  port := if ssl then pyOrNat port 465
          else if tls then pyOrNat port 587
          else pyOrNat port 25
  user := user
  password := password
  ssl := ssl
  tls := tls
  connected := false
  clientActive := false

/-- Embeds `SMTPMailer.connect`: build the client, `ehlo`, upgrade with `starttls`
and `ehlo` again under `tls`, `login` when both credentials are truthy, and
set `connected`.  Returns the protocol actions performed, in order. -/
def SMTPMailer.connect (m : SMTPMailer) : SMTPMailer × List SMTPEvent :=
  let evs := [SMTPEvent.ehlo]
    ++ (if m.tls then [SMTPEvent.starttls, SMTPEvent.ehlo] else [])
    ++ (if strOptTruthy m.user && strOptTruthy m.password then
          [SMTPEvent.login (m.user.getD "") (m.password.getD "")] else [])
  ({ m with clientActive := true, connected := true }, evs)

/-- Embeds `SMTPMailer.close`: when connected, try `self.client.quit()`, swallowing
only `SMTPServerDisconnected`; then set `connected = False` — but an
uncaught exception from `quit` propagates *before* that assignment runs. -/
def SMTPMailer.close (m : SMTPMailer) (quit : QuitBehavior) :
    SMTPMailer × Option String :=
  if m.connected then
    match quit with
    | .ok => ({ m with connected := false }, none)
    | .serverDisconnected => ({ m with connected := false }, none)
    | .raises => (m, some "exception from quit")
  else ({ m with connected := false }, none)

/-- Embeds `SMTPMailer.send`: prepare the message when it is not prepared, connect
when not connected, then `send_message` with the optional envelope
overrides.  Returns the new mailer state, the (possibly prepared) message,
and the protocol actions, in order. -/
def SMTPMailer.send (stripHtml markdown : String → String)
    (parseBytes : List Nat → MimePart) (mailer : SMTPMailer) (m : Message)
    (sender : Option String) (receivers : Option (List String)) :
    SMTPMailer × Message × List SMTPEvent :=
  let m' := if !m.prepared then m.prepare stripHtml markdown parseBytes else m
  let (mailer', evs) := if !mailer.connected then mailer.connect else (mailer, [])
  (mailer', m', evs ++ [SMTPEvent.transmit sender receivers])

/-! ## Derived forms of the prepare/attach effects

These definitions name the pieces of state `prepare` and `attach` produce,
so the theorems below can speak about them compactly; each is read off the
corresponding statements of the source. -/

/-- The plaintext body after step 1 of the normal `prepare` path
(`self.text = self.text or BeautifulSoup(self.html, ...).get_text(strip=True)`). -/
def derivedText (stripHtml : String → String) (m : Message) : String :=
  pyOrStr m.text (stripHtml m.html)

/-- The HTML body after step 2 of the normal `prepare` path
(`self.html = self.html or mistune.markdown(self.text)`, where `self.text`
has already been updated by step 1). -/
def derivedHtml (stripHtml markdown : String → String) (m : Message) : String :=
  pyOrStr m.html (markdown (derivedText stripHtml m))

/-- The `multipart/alternative` body part the normal `prepare` path builds:
plaintext first, HTML second. -/
def altBody (stripHtml markdown : String → String) (m : Message) : MimePart :=
  .multipart "alternative" []
    [.text "plain" [] (derivedText stripHtml m),
     .text "html" [] (derivedHtml stripHtml markdown m)]

/-- The headers one run of the normal `prepare` path appends, in order:
`Sender`, `From`, `To`, `Subject`, then `CC`/`BCC`/`Reply-To` when truthy,
then the custom headers. -/
def stdHeaders (m : Message) : List (String × String) :=
  [("Sender", stringify_address m.sender),
   ("From", if optTruthy m.authors then stringify_addresses (m.authors.getD (.list []))
            else stringify_address m.sender),
   ("To", stringify_addresses m.receivers),
   ("Subject", m.subject)]
  ++ (if optTruthy m.cc then [("CC", stringify_addresses (m.cc.getD (.list [])))] else [])
  ++ (if optTruthy m.bcc then [("BCC", stringify_addresses (m.bcc.getD (.list [])))] else [])
  ++ (if optTruthy m.reply_to then
        [("Reply-To", stringify_addresses (m.reply_to.getD (.list [])))] else [])
  ++ m.headers.getD []

/-- One `attach` call as a value: its data, filename and optional mimetype. -/
structure AttachInput where
  data : List Nat
  filename : String
  mimetype : Option String

/-- The part a successful `attach` call appends (a default placeholder when
the call would raise; the theorems only use it where success is known). -/
def partOfD (f : AttachInput) : MimePart :=
  (attachmentPart f.data f.filename f.mimetype).getD (.base "" "" [] "")

/-- The relation `attachesTo m fs m'`: running `attach` successively with the inputs `fs`,
each call succeeding, takes the message state `m` to `m'`. -/
def attachesTo : Message → List AttachInput → Message → Prop
  | m, [], m' => m' = m
  | m, f :: fs, m' =>
    ∃ mid, m.attach f.data f.filename f.mimetype = .ok mid ∧ attachesTo mid fs m'

/-- A falsy optional headers dict contributes no custom headers. -/
theorem headers_getD_of_not_truthy {hs? : Option (List (String × String))}
    (h : headersTruthy hs? = false) : hs?.getD [] = [] := by
  cases hs? with
  | none => rfl
  | some l => cases l with
    | nil => rfl
    | cons a tl => simp [headersTruthy] at h

/-- Python's `__setitem__` on a multipart appends the header. -/
theorem addHeader_multipart (st : String) (hs : List (String × String))
    (ps : List MimePart) (k v : String) :
    (MimePart.multipart st hs ps).addHeader k v = .multipart st (hs ++ [(k, v)]) ps :=
  rfl

/-- Python's `attach` on a multipart appends the child. -/
theorem attachPart_multipart (st : String) (hs : List (String × String))
    (ps : List MimePart) (p : MimePart) :
    (MimePart.multipart st hs ps).attachPart p = .multipart st hs (ps ++ [p]) :=
  rfl

/-- Folding `__setitem__` over a header list appends it. -/
theorem foldl_addHeader (hs' : List (String × String)) (st : String)
    (hs : List (String × String)) (ps : List MimePart) :
    hs'.foldl (fun acc kv => acc.addHeader kv.1 kv.2)
      (MimePart.multipart st hs ps) = .multipart st (hs ++ hs') ps := by
  induction hs' generalizing hs with
  | nil => simp
  | cons kv tl ih =>
    rw [List.foldl_cons, addHeader_multipart, ih, List.append_assoc,
      List.singleton_append]

/-- The one master lemma about the normal `prepare` path: it rewrites the
bodies to their derived forms, appends the standard and custom headers to
the outer document, appends the alternative body as the *last* child, and
sets `prepared`. -/
theorem prepare_message_eq (s k : String → String) (pb : List Nat → MimePart)
    (m : Message) (st : String) (hs : List (String × String))
    (ps : List MimePart) (hov : bytesTruthy m.prepared_message = false)
    (hmsg : m.message = .multipart st hs ps) :
    m.prepare s k pb =
      { m with text := derivedText s m, html := derivedHtml s k m,
               message := .multipart st (hs ++ stdHeaders m)
                 (ps ++ [altBody s k m]),
               prepared := true } := by
  unfold Message.prepare
  rw [hov]
  simp only [Bool.false_eq_true, if_false, hmsg]
  cases hcc : optTruthy m.cc <;> cases hbcc : optTruthy m.bcc <;>
    cases hrt : optTruthy m.reply_to <;> cases hh : headersTruthy m.headers <;>
    simp [addHeader_multipart, attachPart_multipart, foldl_addHeader, hcc, hbcc,
      hrt, hh, headers_getD_of_not_truthy, stdHeaders, derivedText, derivedHtml,
      altBody]

/-- What a successful non-override `attach` call did: the part resolution
succeeded and the state gained that part and that filename. -/
theorem attach_ok_eq (m : Message) (d : List Nat) (f : String)
    (mt : Option String) (mid : Message)
    (hov : bytesTruthy m.prepared_message = false)
    (h : m.attach d f mt = .ok mid) :
    attachmentPart d f mt = some (partOfD ⟨d, f, mt⟩) ∧
    mid = { m with message := m.message.attachPart (partOfD ⟨d, f, mt⟩),
                   attachments := m.attachments ++ [f] } := by
  unfold Message.attach at h
  rw [hov] at h
  simp only [Bool.false_eq_true, if_false] at h
  cases hap : attachmentPart d f mt with
  | none => rw [hap] at h; exact absurd h (by simp)
  | some p =>
    rw [hap] at h
    simp only [Except.ok.injEq] at h
    refine ⟨by simp [partOfD, hap], ?_⟩
    rw [← h]
    simp [partOfD, hap]

/-- A successful sequence of non-override `attach` calls appends the built
parts to the document and the filenames to the attachment record, in call
order, and touches nothing else. -/
theorem attachesTo_eq (m : Message) (fs : List AttachInput) (m' : Message)
    (hov : bytesTruthy m.prepared_message = false) (h : attachesTo m fs m') :
    m' = { m with
      message := fs.foldl (fun acc f => acc.attachPart (partOfD f)) m.message,
      attachments := m.attachments ++ fs.map (·.filename) } := by
  induction fs generalizing m with
  | nil =>
    simp only [attachesTo] at h
    simpa using h
  | cons f tl ih =>
    simp only [attachesTo] at h
    obtain ⟨mid, hok, htl⟩ := h
    obtain ⟨-, hmid⟩ := attach_ok_eq m f.data f.filename f.mimetype mid hov hok
    subst hmid
    have hov' : bytesTruthy (({ m with
        message := m.message.attachPart (partOfD ⟨f.data, f.filename, f.mimetype⟩),
        attachments := m.attachments ++ [f.filename] } : Message)).prepared_message
        = false := hov
    have := ih _ hov' htl
    rw [this]
    simp [List.foldl_cons, List.append_assoc]

/-- Folding `attach` over a multipart appends all the parts. -/
theorem foldl_attachPart (l : List AttachInput) (st : String)
    (hs : List (String × String)) (ps : List MimePart) :
    l.foldl (fun acc f => acc.attachPart (partOfD f)) (MimePart.multipart st hs ps)
      = .multipart st hs (ps ++ l.map partOfD) := by
  induction l generalizing ps with
  | nil => simp
  | cons f tl ih => simp [List.foldl_cons, attachPart_multipart, ih]

/-! ## Concrete example values used by the counterexamples and witnesses -/

/-- A concrete message: sender `a@x.com`, one receiver, subject `Hi`,
plaintext body `Body`, no override. -/
def msgEx : Message :=
  Message.make (.bare "a@x.com") (.list [.bare "b@y.com"]) (some "Hi")
    none none none none none (some "Body") none none

/-- The state of `msgEx` after `attach(b'\x01\x02\x03', 'report.pdf')`. -/
def msgExAttached : Message :=
  match msgEx.attach [1, 2, 3] "report.pdf" none with
  | .ok m => m
  | .error _ => msgEx

/-- A concrete stand-in for `email.message_from_bytes` in witnesses. -/
def noParse : List Nat → MimePart := fun _ => .multipart "mixed" [] []

/-- Whether a part is a `multipart/alternative`. -/
def isAlternativePart : MimePart → Bool
  | .multipart "alternative" _ _ => true
  | _ => false

/-- C1, counterexample: on a message with one attachment added before
`prepare()`, the finalized document's first child is the *attachment*, not
the `multipart/alternative` body — the body is appended after the
attachments, so the claimed shape (alternative first, attachments after) is
wrong.  The children here are attachment-then-alternative. -/
theorem attachment_precedes_body_counterexample :
    (msgExAttached.prepare id id noParse).message.parts.map isAlternativePart
      = [false, true] := by
  rfl

/-- C1 as amended: for every Message prepared via the normal (non-override)
path after a sequence of successful `attach()` calls, the finalized document
is a `multipart/mixed` whose *initial* children are the attachments in the
order `attach()` was called on them, and whose *last* child is the
`multipart/alternative` part with exactly two sub-parts, plaintext then
HTML. -/
theorem prepared_children_order (s k : String → String)
    (pb : List Nat → MimePart) (sender : Address) (receivers : AddressList)
    (subject : Option String) (authors cc bcc reply_to : Option AddressList)
    (headers : Option (List (String × String))) (text html : Option String)
    (pm : Option (List Nat)) (files : List AttachInput) (m' : Message)
    (hov : bytesTruthy pm = false)
    (h : attachesTo (Message.make sender receivers subject authors cc bcc
      reply_to headers text html pm) files m') :
    (m'.prepare s k pb).message.parts =
      files.map partOfD ++
        [altBody s k (Message.make sender receivers subject authors cc bcc
          reply_to headers text html pm)] ∧
    m'.attachments = files.map (·.filename) := by
  have hm' := attachesTo_eq _ files m' hov h
  subst hm'
  have hmsg : (({ Message.make sender receivers subject authors cc bcc
      reply_to headers text html pm with
      message := files.foldl (fun acc f => acc.attachPart (partOfD f))
        (Message.make sender receivers subject authors cc bcc reply_to headers
          text html pm).message,
      attachments := (Message.make sender receivers subject authors cc bcc
        reply_to headers text html pm).attachments ++ files.map (·.filename) } :
      Message)).message = .multipart "mixed" [] ([] ++ files.map partOfD) := by
    simp only [Message.make]
    exact foldl_attachPart files "mixed" [] []
  rw [prepare_message_eq s k pb _ "mixed" [] ([] ++ files.map partOfD) hov hmsg]
  refine ⟨?_, by simp [Message.make]⟩
  simp [MimePart.parts, altBody, derivedText, derivedHtml, Message.make]

/-- Witness for `prepared_children_order` at the concrete
attach-then-prepare run of `msgExAttached`. -/
theorem prepared_children_order_witness :
    (msgExAttached.prepare id id noParse).message.parts =
      ([⟨[1, 2, 3], "report.pdf", none⟩] : List AttachInput).map partOfD ++
        [altBody id id msgEx] ∧
    msgExAttached.attachments =
      ([⟨[1, 2, 3], "report.pdf", none⟩] : List AttachInput).map (·.filename) :=
  prepared_children_order id id noParse (.bare "a@x.com")
    (.list [.bare "b@y.com"]) (some "Hi") none none none none none
    (some "Body") none none [⟨[1, 2, 3], "report.pdf", none⟩] msgExAttached
    rfl ⟨msgExAttached, rfl, rfl⟩

/-! ## Claim C2: stringification of ASCII display names -/

/-- Both escapable characters are also specials. -/
theorem special_of_escape (c : Char) (h : isEscapeChar c = true) :
    isSpecialChar c = true := by
  simp only [isEscapeChar, Bool.or_eq_true, decide_eq_true_eq] at h
  rcases h with h | h <;> subst h <;> rfl

/-- Escaping is the identity on names with no escapable character. -/
theorem escapeName_of_no_escape (s : String)
    (h : ∀ c ∈ s.toList, isEscapeChar c = false) : escapeName s = s := by
  unfold escapeName
  have key : ∀ l : List Char, (∀ c ∈ l, isEscapeChar c = false) →
      (l.flatMap fun c => if isEscapeChar c then ['\\', c] else [c]) = l := by
    intro l hl
    induction l with
    | nil => rfl
    | cons c tl ih =>
      have hc := hl c (List.mem_cons_self c tl)
      have htl := fun x hx => hl x (List.mem_cons_of_mem _ hx)
      simp [List.flatMap_cons, hc, ih htl]
  rw [key s.toList h]
  cases s
  rfl

/-- C2, counterexample: `stringify_address(("John", "john@example.com"))`
yields the *unquoted* `John <john@example.com>`, not the claimed
`"John" <john@example.com>` — `formataddr` quotes a display name only when
it contains one of the specials `][\()<>@,:;".`. -/
theorem stringify_unquoted_counterexample :
    stringify_address (.named "John" "john@example.com")
        = "John <john@example.com>" ∧
      "John <john@example.com>" ≠ "\"John\" <john@example.com>" :=
  ⟨rfl, by decide⟩

/-- Behavior of `formataddr` on a non-empty ASCII name: escaped name, quoted when a
special character occurs. -/
theorem formataddr_ascii (name email : String) (hne : name ≠ "")
    (hascii : isAsciiStr name = true) :
    formataddr name email =
      (if name.toList.any isSpecialChar then "\"" else "") ++ escapeName name ++
      (if name.toList.any isSpecialChar then "\"" else "") ++ " <" ++ email
        ++ ">" := by
  unfold formataddr
  rw [if_pos hne, if_pos hascii]

/-- C2 as amended: for every (name, email) pair with non-empty all-ASCII
name, `stringify_address` returns `"name" <email>` — the name
backslash-escaped and enclosed in double quotes — exactly when the name
contains one of the special characters `][\()<>@,:;".`; otherwise it
returns the unquoted `name <email>`. -/
theorem stringify_ascii_name (name email : String) (hne : name ≠ "")
    (hascii : isAsciiStr name = true) :
    (name.toList.any isSpecialChar = true →
      stringify_address (.named name email)
        = "\"" ++ escapeName name ++ "\"" ++ " <" ++ email ++ ">") ∧
    (name.toList.any isSpecialChar = false →
      stringify_address (.named name email) = name ++ " <" ++ email ++ ">") := by
  have hform : stringify_address (.named name email) = formataddr name email := rfl
  constructor <;> intro hspec
  · rw [hform, formataddr_ascii name email hne hascii, hspec]
    simp [String.append_assoc]
  · have hesc : ∀ c ∈ name.toList, isEscapeChar c = false := by
      intro c hc
      by_contra hctr
      have h1 : isEscapeChar c = true := by
        cases h2 : isEscapeChar c with
        | false => exact absurd h2 hctr
        | true => rfl
      have h3 := special_of_escape c h1
      rw [List.any_eq_false] at hspec
      exact absurd h3 (by simpa using hspec c hc)
    rw [hform, formataddr_ascii name email hne hascii, hspec,
      escapeName_of_no_escape name hesc]
    simp [String.append_assoc]

/-- Witness for `stringify_ascii_name` at `("John Doe",
"john@example.com")` (no special characters, so no quotes). -/
theorem stringify_ascii_name_witness :
    stringify_address (.named "John Doe" "john@example.com")
      = "John Doe" ++ " <" ++ "john@example.com" ++ ">" :=
  (stringify_ascii_name "John Doe" "john@example.com" (by decide) (by decide)).2
    (by decide)

/-! ## Claim C3: the `close()` contract -/

/-- A concrete connected mailer. -/
def mailerConn : SMTPMailer :=
  ((SMTPMailer.make "smtp.example.com" none none none false false).connect).1

/-- C3, counterexample: when the graceful `quit` raises an exception other
than `SMTPServerDisconnected`, `close()` propagates it *before* the
`self.connected = False` assignment runs, so `connected` is **not** reset —
refuting the claim's "connected is reset to false even if the graceful
termination itself raised an exception". -/
theorem close_not_reset_counterexample :
    ((mailerConn.close .raises).1.connected = true ∧
      (mailerConn.close .raises).2 = some "exception from quit") :=
  ⟨rfl, rfl⟩

/-- C3 as amended: `close()` on a never-connected or already-closed mailer
never raises and leaves `connected = false`; on a connected mailer a
`SMTPServerDisconnected` from the graceful quit is swallowed and
`connected` is reset; but any *other* exception from the quit propagates
and leaves `connected` still true (the reset assignment never runs). -/
theorem close_lifecycle (m : SMTPMailer) (q : QuitBehavior) :
    (m.connected = false → m.close q = ({ m with connected := false }, none)) ∧
    (m.connected = true → q ≠ .raises →
      m.close q = ({ m with connected := false }, none)) ∧
    (m.connected = true → q = .raises →
      (m.close q).1.connected = true ∧
        (m.close q).2 = some "exception from quit") := by
  refine ⟨fun h => ?_, fun h hq => ?_, fun h hq => ?_⟩
  · unfold SMTPMailer.close
    rw [h]
    simp
  · unfold SMTPMailer.close
    rw [h]
    cases q with
    | ok => simp
    | serverDisconnected => simp
    | raises => exact absurd rfl hq
  · subst hq
    unfold SMTPMailer.close
    rw [h]
    exact ⟨h, rfl⟩

/-- Witness for `close_lifecycle`: a never-connected mailer closes to an
unconnected state with no exception. -/
theorem close_lifecycle_witness :
    (SMTPMailer.make "smtp.example.com" none none none false false).close .ok
      = ({ SMTPMailer.make "smtp.example.com" none none none false false with
            connected := false }, none) :=
  (close_lifecycle (SMTPMailer.make "smtp.example.com" none none none false
    false) .ok).1 rfl

/-! ## Claim C4: the override path -/

/-- C4: with a truthy `prepared_message`, `prepare()` only deserializes the
raw bytes into the document and sets `prepared` (no body derivation, no
header construction — every other field is untouched), and `attach()`
returns with the state completely unchanged; a freshly constructed message
has an empty attachment list, so it stays empty. -/
theorem override_prepare_attach (s k : String → String)
    (pb : List Nat → MimePart) (m : Message) (d : List Nat) (f : String)
    (mt : Option String) (sender : Address) (receivers : AddressList)
    (subject : Option String) (authors cc bcc reply_to : Option AddressList)
    (headers : Option (List (String × String))) (text html : Option String)
    (pm : Option (List Nat)) (hov : bytesTruthy m.prepared_message = true) :
    m.prepare s k pb = { m with message := pb (m.prepared_message.getD []),
                                prepared := true } ∧
    m.attach d f mt = .ok m ∧
    (Message.make sender receivers subject authors cc bcc reply_to headers
      text html pm).attachments = [] := by
  refine ⟨?_, ?_, rfl⟩
  · unfold Message.prepare
    rw [hov]
    simp
  · unfold Message.attach
    rw [hov]
    simp

/-- A concrete message built around externally supplied raw bytes. -/
def msgOverride : Message :=
  Message.make (.bare "a@x.com") (.list [.bare "b@y.com"]) none none none
    none none none none none (some [77, 73, 77, 69])

/-- Witness for `override_prepare_attach` on `msgOverride`. -/
theorem override_prepare_attach_witness :
    msgOverride.prepare id id noParse
      = { msgOverride with
          message := noParse (msgOverride.prepared_message.getD []),
          prepared := true } ∧
    msgOverride.attach [1] "x.pdf" none = .ok msgOverride ∧
    (Message.make (.bare "a@x.com") (.list [.bare "b@y.com"]) none none none
      none none none none none (some [77, 73, 77, 69])).attachments = [] :=
  override_prepare_attach id id noParse msgOverride [1] "x.pdf" none
    (.bare "a@x.com") (.list [.bare "b@y.com"]) none none none none none
    none none none (some [77, 73, 77, 69]) rfl

/-! ## Claim C5: body derivation on the normal path -/

/-- The normal `prepare` path rewrites the bodies to their derived forms
(whatever the document looked like). -/
theorem prepare_text_html (s k : String → String) (pb : List Nat → MimePart)
    (m : Message) (hov : bytesTruthy m.prepared_message = false) :
    (m.prepare s k pb).text = derivedText s m ∧
    (m.prepare s k pb).html = derivedHtml s k m := by
  unfold Message.prepare
  rw [hov]
  simp [derivedText, derivedHtml]

/-- C5: on the normal `prepare()` path, an empty `text` is derived from the
non-empty `html` by the HTML stripper; an empty `html` is derived from the
non-empty `text` by the Markdown renderer; and the text derivation happens
first — the final `html` is always derived (when derived at all) from the
*already-derived* text. -/
theorem body_derivation (s k : String → String) (pb : List Nat → MimePart)
    (m : Message) (hov : bytesTruthy m.prepared_message = false) :
    (m.text = "" → m.html ≠ "" → (m.prepare s k pb).text = s m.html) ∧
    (m.html = "" → m.text ≠ "" →
      (m.prepare s k pb).text = m.text ∧ (m.prepare s k pb).html = k m.text) ∧
    (m.prepare s k pb).html = pyOrStr m.html (k ((m.prepare s k pb).text)) := by
  obtain ⟨ht, hh⟩ := prepare_text_html s k pb m hov
  refine ⟨fun h1 h2 => ?_, fun h1 h2 => ⟨?_, ?_⟩, ?_⟩
  · rw [ht]
    simp [derivedText, pyOrStr, h1]
  · rw [ht]
    simp [derivedText, pyOrStr, h2]
  · rw [hh]
    simp [derivedHtml, derivedText, pyOrStr, h1, h2]
  · rw [hh, ht]
    rfl

/-- Witness for `body_derivation`: `msgEx` has `text = "Body"`, `html = ""`,
so the HTML is the rendered Markdown of the text. -/
theorem body_derivation_witness :
    (msgEx.prepare (fun x => "S" ++ x) (fun x => "M" ++ x) noParse).text
        = msgEx.text ∧
    (msgEx.prepare (fun x => "S" ++ x) (fun x => "M" ++ x) noParse).html
        = (fun x => "M" ++ x) msgEx.text :=
  (body_derivation (fun x => "S" ++ x) (fun x => "M" ++ x) noParse msgEx
    rfl).2.1 rfl (by decide)

/-! ## Claim C6: implicit prepare and implicit connect -/

/-- C6: serializing an unprepared message prepares it first (the returned
state is exactly the prepared one and the string serializes the prepared
document); `send` on an unprepared message likewise transmits the prepared
state; and `send` on an unconnected mailer connects first — the event trace
is the connect handshake followed by the transmission. -/
theorem implicit_prepare_connect (s k : String → String)
    (pb : List Nat → MimePart) (asString : MimePart → String)
    (mailer : SMTPMailer) (m : Message) (snd : Option String)
    (rcv : Option (List String)) (hm : m.prepared = false)
    (hc : mailer.connected = false) :
    (Message.strOf s k pb asString m).1 = m.prepare s k pb ∧
    (Message.strOf s k pb asString m).2
        = asString ((m.prepare s k pb).message) ∧
    (SMTPMailer.send s k pb mailer m snd rcv).2.1 = m.prepare s k pb ∧
    (SMTPMailer.send s k pb mailer m snd rcv).1.connected = true ∧
    (SMTPMailer.send s k pb mailer m snd rcv).2.2
        = (mailer.connect).2 ++ [SMTPEvent.transmit snd rcv] := by
  unfold Message.strOf SMTPMailer.send
  rw [hm, hc]
  simp [SMTPMailer.connect]

/-- Witness for `implicit_prepare_connect`: a fresh plain mailer sending the
unprepared `msgEx`. -/
theorem implicit_prepare_connect_witness :
    (Message.strOf id id noParse (fun _ => "") msgEx).1
        = msgEx.prepare id id noParse ∧
    (Message.strOf id id noParse (fun _ => "") msgEx).2
        = (fun _ => "") ((msgEx.prepare id id noParse).message) ∧
    (SMTPMailer.send id id noParse
        (SMTPMailer.make "smtp.example.com" none none none false false) msgEx
        none none).2.1 = msgEx.prepare id id noParse ∧
    (SMTPMailer.send id id noParse
        (SMTPMailer.make "smtp.example.com" none none none false false) msgEx
        none none).1.connected = true ∧
    (SMTPMailer.send id id noParse
        (SMTPMailer.make "smtp.example.com" none none none false false) msgEx
        none none).2.2
        = ((SMTPMailer.make "smtp.example.com" none none none false
            false).connect).2 ++ [SMTPEvent.transmit none none] :=
  implicit_prepare_connect id id noParse (fun _ => "")
    (SMTPMailer.make "smtp.example.com" none none none false false) msgEx
    none none rfl rfl

/-! ## Claim C7: default ports -/

/-- C7: a mailer constructed without an explicit port defaults to 465 under
`ssl`, to 587 under `tls` (without `ssl`), and to 25 with neither flag. -/
theorem port_defaults (host : String) (user password : Option String)
    (ssl tls : Bool) :
    (SMTPMailer.make host none user password ssl tls).port
      = if ssl then 465 else if tls then 587 else 25 := by
  cases ssl <;> cases tls <;> rfl

/-! ## Claim C8: mimetype inference and its fallback -/

/-- A list containing the separator splits. -/
theorem splitOnFirst_isSome (sep : Char) (l : List Char) (h : sep ∈ l) :
    (splitOnFirst sep l).isSome = true := by
  induction l with
  | nil => cases h
  | cons c cs ih =>
    by_cases hc : c = sep
    · simp [splitOnFirst, hc]
    · rcases List.mem_cons.mp h with h1 | h2
      · exact absurd h1.symm hc
      · simp [splitOnFirst, hc, ih h2]

/-- A value returned by an association-list lookup is among its values. -/
theorem lookup_mem_values (key : String) (l : List (String × String))
    (v : String) (h : l.lookup key = some v) : v ∈ l.map Prod.snd := by
  induction l with
  | nil => simp [List.lookup] at h
  | cons kv tl ih =>
    obtain ⟨k1, v1⟩ := kv
    cases hk : (key == k1) with
    | true =>
      rw [List.lookup, hk] at h
      have hv : v1 = v := by injection h
      subst hv
      simp
    | false =>
      rw [List.lookup, hk] at h
      simp only [List.map_cons]
      exact List.mem_cons_of_mem _ (ih h)

/-- Every type in the (modelled) type table contains a slash. -/
theorem typesMap_values_slash :
    ∀ v ∈ typesMap.map Prod.snd, '/' ∈ v.toList := by decide

/-- The type component of `guess_type` is a lookup in the type table. -/
theorem guess_type_fst (filename : String) :
    ∃ key, (guess_type filename).1 = typesMap.lookup key := by
  unfold guess_type
  cases hsp : splitext filename with
  | mk base ext =>
    cases he : encodingsMap.lookup ext with
    | none => exact ⟨strToLower ext, by simp [he]⟩
    | some enc => exact ⟨strToLower (splitext base).2, by simp [he]⟩

/-- The inferred mimetype (guessed or fallback) always contains a slash, so
the main/sub split in `attach` cannot fail on the inference path. -/
theorem resolve_inferred_slash (filename : String) :
    '/' ∈ (resolveMimetype filename none).toList := by
  obtain ⟨key, hkey⟩ := guess_type_fst filename
  unfold resolveMimetype
  cases hg : guess_type filename with
  | mk t e =>
    rw [hg] at hkey
    cases t with
    | none =>
      cases e <;>
        exact (by decide : '/' ∈ ("application/octet-stream").toList)
    | some ty =>
      cases e with
      | none =>
        have hl : typesMap.lookup key = some ty := by
          simpa using hkey.symm
        exact typesMap_values_slash ty (lookup_mem_values key typesMap ty hl)
      | some enc =>
        exact (by decide : '/' ∈ ("application/octet-stream").toList)

/-- An `attach` call relying on inference never raises. -/
theorem attach_infer_ok (m : Message) (d : List Nat) (filename : String)
    (hov : bytesTruthy m.prepared_message = false) :
    ∃ m', m.attach d filename none = .ok m' := by
  have hsp : (splitOnFirst '/' (resolveMimetype filename none).toList).isSome
      = true :=
    splitOnFirst_isSome _ _ (resolve_inferred_slash filename)
  unfold Message.attach
  rw [hov]
  simp only [Bool.false_eq_true, if_false]
  cases hap : attachmentPart d filename none with
  | some p => exact ⟨_, rfl⟩
  | none =>
    exfalso
    unfold attachmentPart splitSlash at hap
    cases hso : splitOnFirst '/' (resolveMimetype filename none).toList with
    | none => rw [hso] at hsp; simp at hsp
    | some pr => rw [hso] at hap; simp at hap

/-- C8: inference-based `attach` never raises; when the guess fails or
reports an encoding wrapper, the resolved mimetype falls back to
`application/octet-stream`; when the guess succeeds cleanly, its type is
used; `report.pdf` infers `application/pdf` and `data.bin` resolves to
`application/octet-stream`. -/
theorem mimetype_inference_fallback (m : Message) (d : List Nat)
    (filename : String) (hov : bytesTruthy m.prepared_message = false) :
    (∃ m', m.attach d filename none = .ok m') ∧
    (((guess_type filename).1 = none ∨ (guess_type filename).2 ≠ none) →
      resolveMimetype filename none = "application/octet-stream") ∧
    (∀ t, guess_type filename = (some t, none) →
      resolveMimetype filename none = t) ∧
    resolveMimetype "report.pdf" none = "application/pdf" ∧
    resolveMimetype "data.bin" none = "application/octet-stream" := by
  refine ⟨attach_infer_ok m d filename hov, ?_, ?_, by decide, by decide⟩
  · intro h
    unfold resolveMimetype
    cases hg : guess_type filename with
    | mk t e =>
      rw [hg] at h
      cases t with
      | none => cases e <;> rfl
      | some ty =>
        cases e with
        | none =>
          rcases h with h | h
          · exact absurd h (by simp)
          · exact absurd rfl h
        | some enc => rfl
  · intro t ht
    unfold resolveMimetype
    rw [ht]

/-- Witness for `mimetype_inference_fallback` on `msgEx` with `photo.png`. -/
theorem mimetype_inference_fallback_witness :
    (∃ m', msgEx.attach [0] "photo.png" none = .ok m') ∧
    (((guess_type "photo.png").1 = none ∨ (guess_type "photo.png").2 ≠ none) →
      resolveMimetype "photo.png" none = "application/octet-stream") ∧
    (∀ t, guess_type "photo.png" = (some t, none) →
      resolveMimetype "photo.png" none = t) ∧
    resolveMimetype "report.pdf" none = "application/pdf" ∧
    resolveMimetype "data.bin" none = "application/octet-stream" :=
  mimetype_inference_fallback msgEx [0] "photo.png" rfl

/-! ## Claim C9: prepare is not gated — a second call duplicates -/

/-- One run of the normal path contributes each standard header exactly
once, as long as the custom headers do not reuse the standard names. -/
theorem stdHeaders_count (m : Message)
    (hcustom : ∀ kv ∈ m.headers.getD [],
      kv.1 ≠ "Sender" ∧ kv.1 ≠ "From" ∧ kv.1 ≠ "To" ∧ kv.1 ≠ "Subject") :
    (stdHeaders m).countP (fun kv => kv.1 = "Sender") = 1 ∧
    (stdHeaders m).countP (fun kv => kv.1 = "From") = 1 ∧
    (stdHeaders m).countP (fun kv => kv.1 = "To") = 1 ∧
    (stdHeaders m).countP (fun kv => kv.1 = "Subject") = 1 := by
  have h0 : ∀ nm, (nm = "Sender" ∨ nm = "From" ∨ nm = "To" ∨ nm = "Subject") →
      (m.headers.getD []).countP (fun kv => kv.1 = nm) = 0 := by
    intro nm hnm
    refine List.countP_eq_zero.mpr fun kv hkv => ?_
    obtain ⟨h1, h2, h3, h4⟩ := hcustom kv hkv
    rcases hnm with h | h | h | h <;> subst h <;> simp [h1, h2, h3, h4]
  unfold stdHeaders
  refine ⟨?_, ?_, ?_, ?_⟩ <;>
    cases hcc : optTruthy m.cc <;> cases hbcc : optTruthy m.bcc <;>
      cases hrt : optTruthy m.reply_to <;>
      simp [List.countP_append, List.countP_cons, h0, hcc, hbcc, hrt]

/-- C9: the second `prepare()` call on a non-override message is not gated
by the `prepared` flag — it re-runs the whole composition against the same
document, so each of `Sender`, `From`, `To`, `Subject` is appended a second
time and a second `multipart/alternative` body part lands after the
first. -/
theorem double_prepare_duplicates (s k : String → String)
    (pb : List Nat → MimePart) (m : Message) (st : String)
    (hs : List (String × String)) (ps : List MimePart)
    (hov : bytesTruthy m.prepared_message = false)
    (hmsg : m.message = .multipart st hs ps)
    (hcustom : ∀ kv ∈ m.headers.getD [],
      kv.1 ≠ "Sender" ∧ kv.1 ≠ "From" ∧ kv.1 ≠ "To" ∧ kv.1 ≠ "Subject") :
    (m.prepare s k pb).prepared = true ∧
    ((m.prepare s k pb).prepare s k pb).message.countHeader "Sender"
        = m.message.countHeader "Sender" + 2 ∧
    ((m.prepare s k pb).prepare s k pb).message.countHeader "From"
        = m.message.countHeader "From" + 2 ∧
    ((m.prepare s k pb).prepare s k pb).message.countHeader "To"
        = m.message.countHeader "To" + 2 ∧
    ((m.prepare s k pb).prepare s k pb).message.countHeader "Subject"
        = m.message.countHeader "Subject" + 2 ∧
    ((m.prepare s k pb).prepare s k pb).message.parts
        = ps ++ [altBody s k m, altBody s k (m.prepare s k pb)] := by
  have h1 := prepare_message_eq s k pb m st hs ps hov hmsg
  have hov1 : bytesTruthy (m.prepare s k pb).prepared_message = false := by
    rw [h1]
    exact hov
  have hmsg1 : (m.prepare s k pb).message
      = .multipart st (hs ++ stdHeaders m) (ps ++ [altBody s k m]) := by
    rw [h1]
  have h2 := prepare_message_eq s k pb (m.prepare s k pb) st
    (hs ++ stdHeaders m) (ps ++ [altBody s k m]) hov1 hmsg1
  have hstd : stdHeaders (m.prepare s k pb) = stdHeaders m := by
    rw [h1]
    rfl
  obtain ⟨c1, c2, c3, c4⟩ := stdHeaders_count m hcustom
  refine ⟨by rw [h1], ?_, ?_, ?_, ?_, ?_⟩
  · rw [h2, hstd, hmsg]
    simp [MimePart.countHeader, MimePart.headersOf, List.countP_append, c1]
  · rw [h2, hstd, hmsg]
    simp [MimePart.countHeader, MimePart.headersOf, List.countP_append, c2]
  · rw [h2, hstd, hmsg]
    simp [MimePart.countHeader, MimePart.headersOf, List.countP_append, c3]
  · rw [h2, hstd, hmsg]
    simp [MimePart.countHeader, MimePart.headersOf, List.countP_append, c4]
  · rw [h2]
    simp [MimePart.parts]

/-- Witness for `double_prepare_duplicates` on `msgEx`. -/
theorem double_prepare_duplicates_witness :
    (msgEx.prepare id id noParse).prepared = true ∧
    ((msgEx.prepare id id noParse).prepare id id noParse).message.countHeader
        "Sender" = msgEx.message.countHeader "Sender" + 2 ∧
    ((msgEx.prepare id id noParse).prepare id id noParse).message.countHeader
        "From" = msgEx.message.countHeader "From" + 2 ∧
    ((msgEx.prepare id id noParse).prepare id id noParse).message.countHeader
        "To" = msgEx.message.countHeader "To" + 2 ∧
    ((msgEx.prepare id id noParse).prepare id id noParse).message.countHeader
        "Subject" = msgEx.message.countHeader "Subject" + 2 ∧
    ((msgEx.prepare id id noParse).prepare id id noParse).message.parts
        = [] ++ [altBody id id msgEx, altBody id id (msgEx.prepare id id noParse)] :=
  double_prepare_duplicates id id noParse msgEx "mixed" [] [] rfl rfl
    (by simp [msgEx, Message.make])

/-! ## Claim C10: an explicit mimetype without a slash raises -/

/-- A list without the separator does not split. -/
theorem splitOnFirst_of_not_mem (sep : Char) (l : List Char)
    (h : ¬ sep ∈ l) : splitOnFirst sep l = none := by
  induction l with
  | nil => rfl
  | cons c cs ih =>
    have hc : ¬ c = sep := fun hh => h (hh ▸ List.mem_cons_self c cs)
    have hcs : ¬ sep ∈ cs := fun hh => h (List.mem_cons_of_mem _ hh)
    simp [splitOnFirst, hc, ih hcs]

/-- C10: on a non-override message, `attach` with an explicit (truthy)
mimetype containing no `/` raises `ValueError` from the main/sub unpacking;
the raise happens before any mutation in the source, and accordingly the
embedded call produces only the error — no new state, so neither the
document nor the attachment list changes. -/
theorem attach_bad_mimetype_raises (m : Message) (d : List Nat)
    (filename mt : String) (hov : bytesTruthy m.prepared_message = false)
    (hne : mt ≠ "") (hslash : ¬ '/' ∈ mt.toList) :
    m.attach d filename (some mt)
      = .error "ValueError: not enough values to unpack (expected 2, got 1)" := by
  have hres : resolveMimetype filename (some mt) = mt := by
    unfold resolveMimetype
    simp [hne]
  have hnone : splitOnFirst '/' mt.data = none :=
    splitOnFirst_of_not_mem '/' mt.data hslash
  unfold Message.attach
  rw [hov]
  simp only [Bool.false_eq_true, if_false]
  simp [attachmentPart, splitSlash, hres, hnone]

/-- Witness for `attach_bad_mimetype_raises`: `attach(b'\x01', 'f.x',
mimetype='plain')` on `msgEx`. -/
theorem attach_bad_mimetype_raises_witness :
    msgEx.attach [1] "f.x" (some "plain")
      = .error "ValueError: not enough values to unpack (expected 2, got 1)" :=
  attach_bad_mimetype_raises msgEx [1] "f.x" "plain" rfl (by decide) (by decide)

end Drymail
